import Mathlib

/-!
# assent-server: the request-handling pipeline of `server.go`

A shallow embedding of `server.go`.  A handler is a function from the request
and the current per-request state to a result: the new state and, when the
handler panicked, the value it panicked with.  The state records, in order,
every call made on the `http.ResponseWriter`, the entries of the request's
`gorilla/context` store, the lines handed to `log`, and the calls made to the
policy engine (`assent.NewWarden().IsAllowed`).

Library code (`encoding/json`, `net/http`, `gorilla/mux`, `assent`) is not part
of `server.go`.  The JSON decoder, the policy engine and the two handlers the
router supplies by itself are parameters (`Env`).  The `http.ResponseWriter`
is the response of the `net/http` server: `WriteHeader` panics on a code
outside 100..999 while the header is unsent, is ignored once the header is
sent, and sends only an interim header for an informational code; `status`,
`sentHeader` and `body` read the response off the calls made.  The router
cleans the path and redirects before it matches routes, as `gorilla/mux` does
when `SkipClean` is not set.  The function `errorHandler` of `server.go` is
installed nowhere and is left out.
-/

namespace AssentServer

/-! ## Data model -/

/-- The value a request body decodes to (`ladon.Request`): resource, action,
subject and a context mapping. -/
structure LadonRequest where
  Resource : String
  Action : String
  Subject : String
  Context : List (String × String)
  deriving DecidableEq, Repr

/-- The record `AssentResponse` of `server.go`. -/
structure AssentResponse where
  IsAllowed : Bool
  deriving DecidableEq, Repr

/-- The record `ErrorResponse` of `server.go`. -/
structure ErrorResponse where
  StatusCode : Int
  StatusMessage : String
  ErrorMessage : String
  deriving DecidableEq, Repr

/-- The constant `ladonRequestKey` (a `contextKey`, which is a string type). -/
def ladonRequestKey : String := "json-request"

/-- A non-nil Go `interface{}` value, by dynamic type: what `panic` carries,
what `recover` returns and what the context store holds.  A pointer is an
`Option`: `none` is the nil pointer of that type. -/
inductive Value
  | errorResponse (p : Option ErrorResponse)
  | str (s : String)
  | ladonRequest (p : Option LadonRequest)
  | runtimeError (msg : String)
  | other (typeName : String)
  deriving DecidableEq, Repr

/-- The bytes of one `Write` on the response: a text line, or the output of
`json.NewEncoder(w).Encode(v)` for the value `v` (kept as the value encoded). -/
inductive Payload
  | text (s : String)
  | errorResponse (e : ErrorResponse)
  | assentResponse (a : AssentResponse)
  | ladonRequest (p : Option LadonRequest)
  deriving DecidableEq, Repr

/-- One call on the `http.ResponseWriter` that returned. -/
inductive Call
  | headerAdd (key value : String)
  | headerSet (key value : String)
  | writeHeader (code : Int)
  | write (p : Payload)
  deriving DecidableEq, Repr

/-- One call on the `log` package.  The elapsed time printed by
`loggingHandler` is not recorded. -/
inductive LogEntry
  | line (s : String)
  | request (p : Option LadonRequest)
  | panic (v : Value)
  | access (method url : String) (request : Option LadonRequest)
  deriving DecidableEq, Repr

/-- The inbound request: method, URL path, body, and the route variables the
router attaches (`mux.Vars`). -/
structure Request where
  Method : String
  Path : String
  Body : String
  Vars : List (String × String) := []
  deriving DecidableEq, Repr

/-- The per-request state a handler acts on. -/
structure State where
  w : List Call
  store : List (String × Value)
  log : List LogEntry
  warden : List (Option LadonRequest)
  deriving DecidableEq, Repr

/-- The state at the start of a request: nothing written, empty store. -/
def State.init : State := ⟨[], [], [], []⟩

/-- How a handler ends: the state it leaves and, if it panicked, the value. -/
structure Result where
  st : State
  panicked : Option Value
  deriving DecidableEq, Repr

/-- An `http.Handler`. -/
abbrev Handler := Request → State → Result

/-- The collaborators outside `server.go`: the JSON decoder on a non-empty
body, the policy engine, and the handlers the router itself supplies for a
path match with a method mismatch and for a trailing-slash redirect. -/
structure Env where
  unmarshal : String → Except String (Option LadonRequest)
  IsAllowed : Option LadonRequest → Option String
  FetchRequest : Option LadonRequest
  methodMismatch : Handler
  redirect : String → Handler

/-! ## The response writer -/

/-- The test of `checkWriteHeaderCode`: a code the server accepts. -/
def validCode (code : Int) : Bool := decide (100 ≤ code) && decide (code ≤ 999)

/-- An informational code: 1xx other than 101 (Switching Protocols).  Its
`WriteHeader` sends an interim header and leaves the final header unsent. -/
def informational (code : Int) : Bool :=
  decide (100 ≤ code) && decide (code ≤ 199) && decide (code ≠ 101)

/-- Whether a `WriteHeader(code)` on an unsent header sends the final header. -/
def sendsHeader (code : Int) : Bool := validCode code && !informational code

/-- The function `bodyAllowedForStatus`: no body for 1xx, 204 and 304. -/
def bodyAllowedForStatus (code : Int) : Bool :=
  !(decide (100 ≤ code) && decide (code ≤ 199)) && decide (code ≠ 204) &&
    decide (code ≠ 304)

/-- The status line of the response: the code of the first `WriteHeader` that
sends the final header, or 200 when a `Write` comes first (the implicit
`WriteHeader(http.StatusOK)`); `none` while the header is unsent. -/
def status : List Call → Option Int
  | [] => none
  | Call.writeHeader code :: rest => if sendsHeader code then some code else status rest
  | Call.write _ :: _ => some 200
  | Call.headerAdd _ _ :: rest => status rest
  | Call.headerSet _ _ :: rest => status rest

/-- The header map `h` after the calls made up to the moment the header is
sent. -/
def sentHeaderFrom (h : List (String × String)) : List Call → List (String × String)
  | [] => h
  | Call.writeHeader code :: rest => if sendsHeader code then h else sentHeaderFrom h rest
  | Call.write _ :: _ => h
  | Call.headerAdd k v :: rest => sentHeaderFrom (h ++ [(k, v)]) rest
  | Call.headerSet k v :: rest =>
    sentHeaderFrom (h.filter (fun kv => kv.1 ≠ k) ++ [(k, v)]) rest

/-- The header fields sent: those added before the header was written. -/
def sentHeader (cs : List Call) : List (String × String) := sentHeaderFrom [] cs

/-- The payload of every `Write` call, in order. -/
def writes : List Call → List Payload
  | [] => []
  | Call.write p :: rest => p :: writes rest
  | _ :: rest => writes rest

/-- The response body: the payload of every `Write` the response accepts, in
order; a status that allows no body accepts none.  (For a HEAD request the
server accepts the writes and transmits only the header.) -/
def body (cs : List Call) : List Payload :=
  match status cs with
  | some code => if bodyAllowedForStatus code then writes cs else []
  | none => []

/-- The number of writes to the response body. -/
def writeCount (cs : List Call) : Nat := (body cs).length

/-- The call `w.Header().Add(key, value)`. -/
def State.headerAdd (s : State) (key value : String) : State :=
  { s with w := s.w ++ [Call.headerAdd key value] }

/-- The call `w.Header().Set(key, value)`. -/
def State.headerSet (s : State) (key value : String) : State :=
  { s with w := s.w ++ [Call.headerSet key value] }

/-- The call `w.WriteHeader(code)`: while the header is unsent a code outside
100..999 panics with a string (`Except.error`); otherwise the call returns. -/
def State.WriteHeader (s : State) (code : Int) : Except Value State :=
  if status s.w = none ∧ validCode code = false then
    Except.error (Value.str ("invalid WriteHeader code " ++ toString code))
  else Except.ok { s with w := s.w ++ [Call.writeHeader code] }

/-- One `Write` on the response (an `Encode` or an `Fprintln`); its error,
if any, is dropped by every caller in `server.go`. -/
def State.Write (s : State) (p : Payload) : State :=
  { s with w := s.w ++ [Call.write p] }

/-- One call on the `log` package. -/
def State.logf (s : State) (e : LogEntry) : State :=
  { s with log := s.log ++ [e] }

/-- The table of `http.StatusText`. -/
def statusTextTable : List (Int × String) :=
  [ (100, "Continue"), (101, "Switching Protocols"), (102, "Processing"),
    (103, "Early Hints"),
    (200, "OK"), (201, "Created"), (202, "Accepted"),
    (203, "Non-Authoritative Information"), (204, "No Content"),
    (205, "Reset Content"), (206, "Partial Content"), (207, "Multi-Status"),
    (208, "Already Reported"), (226, "IM Used"),
    (300, "Multiple Choices"), (301, "Moved Permanently"), (302, "Found"),
    (303, "See Other"), (304, "Not Modified"), (305, "Use Proxy"),
    (307, "Temporary Redirect"), (308, "Permanent Redirect"),
    (400, "Bad Request"), (401, "Unauthorized"), (402, "Payment Required"),
    (403, "Forbidden"), (404, "Not Found"), (405, "Method Not Allowed"),
    (406, "Not Acceptable"), (407, "Proxy Authentication Required"),
    (408, "Request Timeout"), (409, "Conflict"), (410, "Gone"),
    (411, "Length Required"), (412, "Precondition Failed"),
    (413, "Request Entity Too Large"), (414, "Request URI Too Long"),
    (415, "Unsupported Media Type"), (416, "Requested Range Not Satisfiable"),
    (417, "Expectation Failed"), (418, "I'm a teapot"),
    (421, "Misdirected Request"),
    (422, "Unprocessable Entity"), (423, "Locked"), (424, "Failed Dependency"),
    (425, "Too Early"),
    (426, "Upgrade Required"), (428, "Precondition Required"),
    (429, "Too Many Requests"), (431, "Request Header Fields Too Large"),
    (451, "Unavailable For Legal Reasons"),
    (500, "Internal Server Error"), (501, "Not Implemented"),
    (502, "Bad Gateway"), (503, "Service Unavailable"),
    (504, "Gateway Timeout"), (505, "HTTP Version Not Supported"),
    (506, "Variant Also Negotiates"), (507, "Insufficient Storage"),
    (508, "Loop Detected"), (510, "Not Extended"),
    (511, "Network Authentication Required") ]

/-- The function `http.StatusText`: the text of a known code, else empty. -/
def statusText (code : Int) : String :=
  (statusTextTable.lookup code).getD ""

/-! ## The context store -/

/-- The call `context.Set(r, key, val)`. -/
def State.contextSet (s : State) (key : String) (val : Value) : State :=
  { s with store := (key, val) :: s.store }

/-- The call `context.Get(r, key)`: `none` is the nil interface. -/
def State.contextGet (s : State) (key : String) : Option Value :=
  s.store.lookup key

/-- The value `getLadonRequest` panics with. -/
def notParsed : Value :=
  Value.errorResponse (some ⟨400, "", "Can't parse input json"⟩)

/-- The function `getLadonRequest`: the type assertion to `*ladon.Request` on
the stored value; `Except.error v` is a panic with `v`. -/
def getLadonRequest (s : State) : Except Value (Option LadonRequest) :=
  match s.contextGet ladonRequestKey with
  | some (Value.ladonRequest request) => Except.ok request
  | _ => Except.error notParsed

/-! ## Middleware and handlers -/

/-- The value of a nil-pointer dereference, a `runtime.Error`. -/
def nilDereference : Value :=
  Value.runtimeError "invalid memory address or nil pointer dereference"

/-- The function `ErrorResponseHandler`; `e` is the pointer argument. -/
def ErrorResponseHandler (e : Option ErrorResponse) : Handler := fun _ s =>
  let s1 := s.headerAdd "Content-Type" "application/json"
  match e with
  | none => ⟨s1, some nilDereference⟩
  | some e =>
    match s1.WriteHeader e.StatusCode with
    | Except.error v => ⟨s1, some v⟩
    | Except.ok s2 =>
      let e1 : ErrorResponse := { e with StatusMessage := statusText e.StatusCode }
      ⟨s2.Write (Payload.errorResponse e1), none⟩

/-- The classification of the recovered value in `recoverHandler`: the
variable `response` after the two type assertions. -/
def classify (err : Value) : Option ErrorResponse :=
  match err with
  | Value.errorResponse parsed => parsed
  | Value.str identifier => some ⟨500, "", identifier⟩
  | _ => none

/-- The middleware `recoverHandler`. -/
def recoverHandler (next : Handler) : Handler := fun r s =>
  let res := next r s
  match res.panicked with
  | none => res
  | some err =>
    ErrorResponseHandler (classify err) r (res.st.logf (LogEntry.panic err))

/-- The call `json.NewDecoder(r.Body).Decode(&request)`: the end of input
(`io.EOF`) on an empty body, the decoder's answer otherwise. -/
def Decode (env : Env) (reqBody : String) : Except String (Option LadonRequest) :=
  if reqBody = "" then Except.error "EOF" else env.unmarshal reqBody

/-- The middleware `parsingHandler`. -/
def parsingHandler (env : Env) (next : Handler) : Handler := fun r s =>
  match Decode env r.Body with
  | Except.error err =>
    ⟨s, some (Value.errorResponse
      (some ⟨400, "", "Can't parse input json2222" ++ err⟩))⟩
  | Except.ok request =>
    let s1 := s.logf (LogEntry.request request)
    next r (s1.contextSet ladonRequestKey (Value.ladonRequest request))

/-- The middleware `loggingHandler`. -/
def loggingHandler (next : Handler) : Handler := fun r s =>
  let res := next r s
  match res.panicked with
  | some _ => res
  | none =>
    match getLadonRequest res.st with
    | Except.error v => ⟨res.st, some v⟩
    | Except.ok request =>
      ⟨res.st.logf (LogEntry.access r.Method r.Path request), none⟩

/-- The function `notFoundHandler`. -/
def notFoundHandler : Handler :=
  ErrorResponseHandler (some ⟨404, "", "Resource not found"⟩)

/-- The handler `Index`. -/
def Index : Handler := fun _ s =>
  ⟨s.Write (Payload.text "Welcome!\n"), none⟩

/-- The handler `PolicyIndex`. -/
def PolicyIndex (env : Env) : Handler := fun _ s =>
  let s1 := s.headerAdd "Content-Type" "application/json"
  ⟨s1.Write (Payload.ladonRequest env.FetchRequest), none⟩

/-- The handler `CheckAccess`. -/
def CheckAccess (env : Env) : Handler := fun r s =>
  if r.Method ≠ "POST" then
    ⟨s, some (Value.errorResponse (some ⟨405, "", "Use POST requests"⟩))⟩
  else
    match getLadonRequest s with
    | Except.error v => ⟨s, some v⟩
    | Except.ok request =>
      let s1 : State := { s with warden := s.warden ++ [request] }
      let (response, s2) : AssentResponse × State :=
        match env.IsAllowed request with
        | none => (⟨true⟩, s1.logf (LogEntry.line "Allowed"))
        | some _ => (⟨false⟩, s1.logf (LogEntry.line "Access denied"))
      let s3 := s2.headerAdd "Content-Type" "application/json"
      ⟨s3.Write (Payload.assentResponse response), none⟩

/-- The handler `TodoShow`. -/
def TodoShow : Handler := fun r s =>
  let todoId := (r.Vars.lookup "todoId").getD ""
  ⟨s.Write (Payload.text ("Todo show: " ++ todoId ++ "\n")), none⟩

/-- The chain `alice.New(cs...).ThenFunc(h)`: the first constructor is the
outermost. -/
def aliceThen (cs : List (Handler → Handler)) (h : Handler) : Handler :=
  cs.foldr (fun c acc => c acc) h

/-- The chain `commonHandlers` of `main`. -/
def commonHandlers (env : Env) : List (Handler → Handler) :=
  [recoverHandler, parsingHandler env, loggingHandler]

/-! ## The router -/

/-- The terminal handler functions of `server.go` a route can lead to. -/
inductive Target
  | Index
  | CheckAccess
  | PolicyIndex
  | TodoShow
  deriving DecidableEq, Repr

/-- One `router.Handle` / `router.HandleFunc` line of `main`: the path
template, the terminal handler, whether it is registered through
`commonHandlers.ThenFunc`, and the methods given to `Methods` (none given:
every method). -/
structure Route where
  tpl : String
  target : Target
  common : Bool
  methods : List String
  deriving DecidableEq, Repr

/-- The route table built in `main`, in registration order. -/
def routes : List Route :=
  [ ⟨"/", Target.Index, true, ["GET"]⟩,
    ⟨"/check", Target.CheckAccess, true, ["POST"]⟩,
    ⟨"/policy", Target.PolicyIndex, true, ["POST"]⟩,
    ⟨"/todos/{todoId}", Target.TodoShow, false, []⟩ ]

/-- The pieces of a path between slashes. -/
def splitSlash : List Char → List (List Char)
  | [] => [[]]
  | c :: cs =>
    if c = '/' then [] :: splitSlash cs
    else
      match splitSlash cs with
      | [] => [[c]]
      | seg :: rest => (c :: seg) :: rest

/-- Whether a path or template ends in a slash. -/
def endsWithSlash (p : String) : Bool := p.data.getLast? = some '/'

/-- The path without its final slash, if it has one. -/
def trimEndSlash (p : String) : List Char :=
  if endsWithSlash p then p.data.dropLast else p.data

/-- The name of a template piece of the form `{name}`. -/
def varName (seg : List Char) : Option String :=
  if seg.head? = some '\x7b' ∧ seg.getLast? = some '\x7d' then
    some (String.mk seg.tail.dropLast)
  else none

/-- Piecewise match of a template against a path: a variable takes one
non-empty piece, a literal piece must be equal. -/
def matchSegments : List (List Char) → List (List Char) → Option (List (String × String))
  | [], [] => some []
  | t :: ts, p :: ps =>
    match varName t with
    | some name =>
      if p = [] then none
      else (matchSegments ts ps).map (fun vars => (name, String.mk p) :: vars)
    | none => if t = p then matchSegments ts ps else none
  | _, _ => none

/-- Path match of a route under `StrictSlash(true)`: the template matches the
path with or without one final slash. -/
def pathMatch (tpl path : String) : Option (List (String × String)) :=
  matchSegments (splitSlash (trimEndSlash tpl)) (splitSlash (trimEndSlash path))

/-- Method match of a route: no `Methods` given, or the method is listed. -/
def methodMatch (methods : List String) (method : String) : Bool :=
  methods = [] || methods.contains method

/-- The outcome of route matching. -/
inductive RouteMatch
  | handler (rt : Route) (vars : List (String × String))
  | redirect (url : String)
  | methodMismatch
  | notFound
  deriving DecidableEq, Repr

/-- The target of the trailing-slash redirect. -/
def redirectPath (path : String) : String :=
  if endsWithSlash path then String.mk path.data.dropLast else path ++ "/"

/-- Route matching: the first route whose path and method both match; a route
that matches with the other trailing-slash form redirects.  `seen` records
that an earlier route matched the path but not the method. -/
def matchRoutes : List Route → Request → Bool → RouteMatch
  | [], _, seen => if seen then RouteMatch.methodMismatch else RouteMatch.notFound
  | rt :: rest, r, seen =>
    match pathMatch rt.tpl r.Path with
    | none => matchRoutes rest r seen
    | some vars =>
      if methodMatch rt.methods r.Method then
        if endsWithSlash r.Path = endsWithSlash rt.tpl then RouteMatch.handler rt vars
        else RouteMatch.redirect (redirectPath r.Path)
      else matchRoutes rest r true

/-- The rooted path elements left by `path.Clean`: empty and `.` elements are
dropped, `..` drops the element before it (none at the root).  `acc` holds
the elements kept so far, last first. -/
def cleanSegments : List (List Char) → List (List Char) → List (List Char)
  | acc, [] => acc.reverse
  | acc, seg :: rest =>
    if seg = [] ∨ seg = ['.'] then cleanSegments acc rest
    else if seg = ['.', '.'] then cleanSegments acc.tail rest
    else cleanSegments (seg :: acc) rest

/-- The rooted path made of the given elements. -/
def joinSlash : List (List Char) → List Char
  | [] => []
  | seg :: rest => '/' :: (seg ++ joinSlash rest)

/-- The function `path.Clean` on a rooted path. -/
def pathClean (p : List Char) : List Char :=
  match cleanSegments [] (splitSlash p) with
  | [] => ['/']
  | segs => joinSlash segs

/-- The function `cleanPath` of the router: the canonical form of a path,
with the final slash put back. -/
def cleanPath (p : String) : String :=
  if p = "" then "/"
  else
    let q : List Char := if p.data.head? = some '/' then p.data else '/' :: p.data
    let np := pathClean q
    if q.getLast? = some '/' ∧ np ≠ ['/'] then String.mk (np ++ ['/'])
    else String.mk np

/-- The handler function a target names. -/
def Target.fn (env : Env) : Target → Handler
  | Target.Index => AssentServer.Index
  | Target.CheckAccess => AssentServer.CheckAccess env
  | Target.PolicyIndex => AssentServer.PolicyIndex env
  | Target.TodoShow => AssentServer.TodoShow

/-- The handler registered for a route. -/
def Route.handler (env : Env) (rt : Route) : Handler :=
  if rt.common then aliceThen (commonHandlers env) (rt.target.fn env)
  else rt.target.fn env

/-- The router's answer to a path that is not in canonical form: a 301 to
the cleaned path, with no body. -/
def cleanRedirect (location : String) : Handler := fun _ s =>
  let s1 := s.headerSet "Location" location
  match s1.WriteHeader 301 with
  | Except.error v => ⟨s1, some v⟩
  | Except.ok s2 => ⟨s2, none⟩

/-- The router of `main`: a path that `cleanPath` changes is redirected;
otherwise the matched route's handler runs with the route variables
attached, and `notFoundHandler` when no route matches the path. -/
def router (env : Env) : Handler := fun r s =>
  if cleanPath r.Path ≠ r.Path then cleanRedirect (cleanPath r.Path) r s
  else
    match matchRoutes routes r false with
    | RouteMatch.handler rt vars => rt.handler env { r with Vars := vars } s
    | RouteMatch.redirect url => env.redirect url r s
    | RouteMatch.methodMismatch => env.methodMismatch r s
    | RouteMatch.notFound => notFoundHandler r s

/-- The server's answer to one request, from the initial state. -/
def serve (env : Env) (r : Request) : Result := router env r State.init

/-- A sample environment: the decoder rejects every body but `{}`, the engine
allows exactly the requests whose subject is `alice`. -/
def sampleEnv : Env where
  unmarshal := fun b =>
    if b = "\x7b\x7d" then Except.ok (some ⟨"", "", "", []⟩)
    else Except.error "invalid character"
  IsAllowed := fun p =>
    match p with
    | some q => if q.Subject = "alice" then none else some "forbidden"
    | none => some "forbidden"
  FetchRequest := none
  methodMismatch := fun _ s => ⟨s.Write (Payload.text "Method Not Allowed\n"), none⟩
  redirect := fun url r s => cleanRedirect url r s

/-! ## Supporting lemmas -/

theorem writes_append (cs ds : List Call) : writes (cs ++ ds) = writes cs ++ writes ds := by
  induction cs with
  | nil => rfl
  | cons c cs ih => cases c <;> simp [writes, ih]

theorem status_append_of_none (cs ds : List Call) (h : status cs = none) :
    status (cs ++ ds) = status ds := by
  induction cs with
  | nil => rfl
  | cons c cs ih =>
    cases c with
    | headerAdd k v => simpa [status] using ih (by simpa [status] using h)
    | headerSet k v => simpa [status] using ih (by simpa [status] using h)
    | writeHeader code =>
      by_cases hc : sendsHeader code = true
      · simp [status, hc] at h
      · simp only [status, hc] at h
        simpa [status, hc] using ih h
    | write p => simp [status] at h

theorem status_append_of_some (cs ds : List Call) (code : Int)
    (h : status cs = some code) : status (cs ++ ds) = some code := by
  induction cs with
  | nil => simp [status] at h
  | cons c cs ih =>
    cases c with
    | headerAdd k v => simpa [status] using ih (by simpa [status] using h)
    | headerSet k v => simpa [status] using ih (by simpa [status] using h)
    | writeHeader c0 =>
      by_cases hc : sendsHeader c0 = true
      · simpa [status, hc] using h
      · simp only [status, hc] at h
        simpa [status, hc] using ih h
    | write p => simpa [status] using h

theorem writes_of_status_none (cs : List Call) (h : status cs = none) : writes cs = [] := by
  induction cs with
  | nil => rfl
  | cons c cs ih =>
    cases c with
    | headerAdd k v => simpa [writes] using ih (by simpa [status] using h)
    | headerSet k v => simpa [writes] using ih (by simpa [status] using h)
    | writeHeader code =>
      by_cases hc : sendsHeader code = true
      · simp [status, hc] at h
      · simp only [status, hc] at h
        simpa [writes] using ih h
    | write p => simp [status] at h

theorem body_of_status_none (cs : List Call) (h : status cs = none) : body cs = [] := by
  simp [body, h]

theorem sentHeaderFrom_append_of_none (cs ds : List Call) (h0 : List (String × String))
    (h : status cs = none) :
    sentHeaderFrom h0 (cs ++ ds) = sentHeaderFrom (sentHeaderFrom h0 cs) ds := by
  induction cs generalizing h0 with
  | nil => rfl
  | cons c cs ih =>
    cases c with
    | headerAdd k v => simpa [sentHeaderFrom] using ih _ (by simpa [status] using h)
    | headerSet k v => simpa [sentHeaderFrom] using ih _ (by simpa [status] using h)
    | writeHeader code =>
      by_cases hc : sendsHeader code = true
      · simp [status, hc] at h
      · simp only [status, hc] at h
        simpa [sentHeaderFrom, hc] using ih h0 h
    | write p => simp [status] at h

/-- Further calls add at most their own writes to the body. -/
theorem writeCount_append_le (cs ds : List Call) :
    writeCount (cs ++ ds) ≤ writeCount cs + (writes ds).length := by
  cases hs : status cs with
  | none =>
    have hb : (body (cs ++ ds)).length ≤ (writes (cs ++ ds)).length := by
      unfold body
      split
      · split <;> simp
      · simp
    have hw : writes (cs ++ ds) = writes ds := by
      simp [writes_append, writes_of_status_none cs hs]
    rw [hw] at hb
    unfold writeCount
    omega
  | some code =>
    simp only [writeCount, body, hs, status_append_of_some cs ds code hs]
    split <;> simp [writes_append]

/-- Adding a header field leaves the body as it is. -/
theorem body_append_headerAdd (cs : List Call) (k v : String) :
    body (cs ++ [Call.headerAdd k v]) = body cs := by
  have hst : status (cs ++ [Call.headerAdd k v]) = status cs := by
    cases hs : status cs with
    | none => rw [status_append_of_none cs _ hs]; rfl
    | some code => exact status_append_of_some cs _ code hs
  simp [body, hst, writes_append, writes]

theorem contextGet_contextSet (s : State) (key : String) (val : Value) :
    (s.contextSet key val).contextGet key = some val := by
  simp [State.contextSet, State.contextGet, List.lookup]

theorem Decode_empty (env : Env) : Decode env "" = Except.error "EOF" := by
  simp [Decode]

/-- Route matching fails with `notFound` (or `methodMismatch` when an earlier
route matched the path) when no route of the list matches the path. -/
theorem matchRoutes_no_path (r : Request) (rs : List Route) (seen : Bool)
    (h : ∀ rt ∈ rs, pathMatch rt.tpl r.Path = none) :
    matchRoutes rs r seen =
      if seen then RouteMatch.methodMismatch else RouteMatch.notFound := by
  induction rs generalizing seen with
  | nil => rfl
  | cons rt rest ih =>
    have h1 : pathMatch rt.tpl r.Path = none := h rt (List.mem_cons_self _ _)
    have h2 : ∀ x ∈ rest, pathMatch x.tpl r.Path = none :=
      fun x hx => h x (List.mem_cons_of_mem _ hx)
    simp [matchRoutes, h1, ih seen h2]

/-- A route that route matching selects is in the table and its method
matcher accepts the request's method. -/
theorem matchRoutes_handler (r : Request) (rs : List Route) (seen : Bool)
    (rt : Route) (vars : List (String × String))
    (h : matchRoutes rs r seen = RouteMatch.handler rt vars) :
    rt ∈ rs ∧ methodMatch rt.methods r.Method = true := by
  induction rs generalizing seen with
  | nil =>
    cases seen <;> simp [matchRoutes] at h
  | cons x rest ih =>
    unfold matchRoutes at h
    split at h
    · have := ih seen h
      exact ⟨List.mem_cons_of_mem _ this.1, this.2⟩
    · split at h
      · split at h
        · injection h with h1 h2
          subst h1
          exact ⟨List.mem_cons_self _ _, by assumption⟩
        · simp at h
      · have := ih true h
        exact ⟨List.mem_cons_of_mem _ this.1, this.2⟩

/-- What `recoverHandler` does with a panic it classifies: the record is
rendered by `ErrorResponseHandler`, after the panic is logged. -/
theorem recoverHandler_classified (next : Handler) (r : Request) (s : State)
    (v : Value) (e : ErrorResponse) (hp : (next r s).panicked = some v)
    (hc : classify v = some e) :
    recoverHandler next r s =
      ErrorResponseHandler (some e) r ((next r s).st.logf (LogEntry.panic v)) := by
  simp [recoverHandler, hp, hc]

/-- What `recoverHandler` does with a panic it does not classify: `response`
is nil, and `ErrorResponseHandler` panics on it after adding the header. -/
theorem recoverHandler_nil_response (next : Handler) (r : Request) (s : State)
    (v : Value) (hp : (next r s).panicked = some v) (hc : classify v = none) :
    recoverHandler next r s =
      ⟨((next r s).st.logf (LogEntry.panic v)).headerAdd "Content-Type" "application/json",
        some nilDereference⟩ := by
  simp [recoverHandler, hp, hc, ErrorResponseHandler]

/-- The header is as unsent after `Header().Add` as before it. -/
theorem status_headerAdd_none (s : State) (k v : String) (h : status s.w = none) :
    status (s.headerAdd k v).w = none := by
  simp only [State.headerAdd]
  rw [status_append_of_none _ _ h]
  rfl

/-- The result of `ErrorResponseHandler` for a record when `WriteHeader`
returns: three calls, no panic. -/
theorem ErrorResponseHandler_ok (e : ErrorResponse) (r : Request) (s : State)
    (h : status s.w = none → validCode e.StatusCode = true) :
    ErrorResponseHandler (some e) r s =
      ⟨{ s with w := s.w ++
          [Call.headerAdd "Content-Type" "application/json",
            Call.writeHeader e.StatusCode,
            Call.write (Payload.errorResponse
              ⟨e.StatusCode, statusText e.StatusCode, e.ErrorMessage⟩)] }, none⟩ := by
  have hno : ¬ (status (s.headerAdd "Content-Type" "application/json").w = none ∧
      validCode e.StatusCode = false) := by
    rintro ⟨h1, h2⟩
    have h3 : status s.w = none := by
      cases hs : status s.w with
      | none => rfl
      | some code =>
        simp only [State.headerAdd] at h1
        rw [status_append_of_some _ _ code hs] at h1
        exact absurd h1 (by simp)
    rw [h h3] at h2
    exact absurd h2 (by simp)
  simp only [ErrorResponseHandler, State.WriteHeader, State.headerAdd] at hno ⊢
  rw [if_neg hno]
  simp [State.Write]

/-- The result of `ErrorResponseHandler` for a record when `WriteHeader`
panics: the header field is added and nothing else. -/
theorem ErrorResponseHandler_panic (e : ErrorResponse) (r : Request) (s : State)
    (h1 : status s.w = none) (h2 : validCode e.StatusCode = false) :
    ErrorResponseHandler (some e) r s =
      ⟨s.headerAdd "Content-Type" "application/json",
        some (Value.str ("invalid WriteHeader code " ++ toString e.StatusCode))⟩ := by
  have hyes : status (s.headerAdd "Content-Type" "application/json").w = none ∧
      validCode e.StatusCode = false := ⟨status_headerAdd_none s _ _ h1, h2⟩
  simp only [ErrorResponseHandler, State.WriteHeader, State.headerAdd] at hyes ⊢
  rw [if_pos hyes]

/-- The two shapes of the calls `ErrorResponseHandler` makes for a record. -/
theorem ErrorResponseHandler_calls (e : ErrorResponse) (r : Request) (s : State) :
    (ErrorResponseHandler (some e) r s).st.w =
        s.w ++ [Call.headerAdd "Content-Type" "application/json"] ∨
    (ErrorResponseHandler (some e) r s).st.w = s.w ++
      [Call.headerAdd "Content-Type" "application/json",
        Call.writeHeader e.StatusCode,
        Call.write (Payload.errorResponse
          ⟨e.StatusCode, statusText e.StatusCode, e.ErrorMessage⟩)] := by
  by_cases h : status s.w = none ∧ validCode e.StatusCode = false
  · left
    rw [ErrorResponseHandler_panic e r s h.1 h.2]
    rfl
  · right
    rw [ErrorResponseHandler_ok e r s]
    intro h1
    cases hv : validCode e.StatusCode with
    | true => rfl
    | false => exact absurd ⟨h1, hv⟩ h

/-- The handler `ErrorResponseHandler` adds at most one write to the body. -/
theorem ErrorResponseHandler_writeCount (e : ErrorResponse) (r : Request) (s : State) :
    writeCount (ErrorResponseHandler (some e) r s).st.w ≤ writeCount s.w + 1 := by
  rcases ErrorResponseHandler_calls e r s with h | h <;> rw [h]
  · exact (writeCount_append_le _ _).trans (by simp [writes])
  · exact (writeCount_append_le _ _).trans (by simp [writes])

/-- The result of `commonHandlers` around any handler when the body does not
decode: the panic of `parsingHandler`, logged and rendered by
`recoverHandler`; the wrapped handler has no part in it. -/
theorem chain_decode_error (env : Env) (h : Handler) (r : Request) (s : State)
    (err : String) (hd : Decode env r.Body = Except.error err) :
    aliceThen (commonHandlers env) h r s =
      ⟨{ s with
          w := s.w ++ [Call.headerAdd "Content-Type" "application/json",
            Call.writeHeader 400,
            Call.write (Payload.errorResponse
              ⟨400, "Bad Request", "Can't parse input json2222" ++ err⟩)],
          log := s.log ++ [LogEntry.panic (Value.errorResponse
            (some ⟨400, "", "Can't parse input json2222" ++ err⟩))] }, none⟩ := by
  have hr : aliceThen (commonHandlers env) h r s =
      ErrorResponseHandler (some ⟨400, "", "Can't parse input json2222" ++ err⟩) r
        (s.logf (LogEntry.panic (Value.errorResponse
          (some ⟨400, "", "Can't parse input json2222" ++ err⟩)))) := by
    simp [aliceThen, commonHandlers, recoverHandler, parsingHandler, hd, classify]
  have hv : validCode (400 : Int) = true := by decide
  rw [hr, ErrorResponseHandler_ok ⟨400, "", "Can't parse input json2222" ++ err⟩ r _
    (fun _ => hv)]
  rfl

/-- Every panic of `getLadonRequest` carries the same 400 record. -/
theorem getLadonRequest_total (s : State) (v : Value)
    (h : getLadonRequest s = Except.error v) : v = notParsed := by
  unfold getLadonRequest at h
  split at h
  · simp at h
  · injection h with h
    exact h.symm

/-! ## Claims -/

/-- C1 (the case the code misses): when `next` panics with a value that
`recoverHandler` classifies as neither a non-nil `*ErrorResponse` nor a string
(a runtime error, for instance), `response` stays nil, `ErrorResponseHandler`
dereferences it after adding the `Content-Type` header, and the request ends
in a second panic: no status is written by `recoverHandler` and nothing is
added to the body, so no generic 500 record is rendered. -/
theorem recoverHandler_unclassified (next : Handler) (r : Request) (s : State)
    (v : Value) (hp : (next r s).panicked = some v) (hc : classify v = none) :
    (recoverHandler next r s).panicked = some nilDereference ∧
    (recoverHandler next r s).st.w =
      (next r s).st.w ++ [Call.headerAdd "Content-Type" "application/json"] ∧
    body (recoverHandler next r s).st.w = body (next r s).st.w := by
  rw [recoverHandler_nil_response next r s v hp hc]
  simp [State.headerAdd, State.logf, body_append_headerAdd]

theorem recoverHandler_unclassified_witness :
    (recoverHandler (fun _ s => ⟨s, some (Value.runtimeError "index out of range")⟩)
        ⟨"POST", "/check", "", []⟩ State.init).panicked = some nilDereference ∧
    status (recoverHandler (fun _ s => ⟨s, some (Value.runtimeError "index out of range")⟩)
        ⟨"POST", "/check", "", []⟩ State.init).st.w = none := by
  have h := recoverHandler_unclassified
    (fun _ s => ⟨s, some (Value.runtimeError "index out of range")⟩)
    ⟨"POST", "/check", "", []⟩ State.init (Value.runtimeError "index out of range")
    rfl rfl
  refine ⟨h.1, ?_⟩
  rw [h.2.1]
  rfl

/-- C2 (counterexample): a GET request to `/` with no body is stopped by
`parsingHandler`; the response is status 400 with the error record, and the
greeting is not written. -/
theorem Index_no_body_is_400 :
    status (serve sampleEnv ⟨"GET", "/", "", []⟩).st.w = some 400 ∧
    body (serve sampleEnv ⟨"GET", "/", "", []⟩).st.w =
      [Payload.errorResponse ⟨400, "Bad Request", "Can't parse input json2222EOF"⟩] := by
  constructor <;> rfl

/-- C2 (amended): a GET request to `/` whose body decodes is answered through
the route table of `main` with status 200 and the one-line text body
`Welcome!`, and no panic is raised. -/
theorem Index_route (env : Env) (r : Request) (p : Option LadonRequest)
    (hm : r.Method = "GET") (hpath : r.Path = "/")
    (hd : Decode env r.Body = Except.ok p) :
    status (serve env r).st.w = some 200 ∧
    body (serve env r).st.w = [Payload.text "Welcome!\n"] ∧
    (serve env r).panicked = none := by
  obtain ⟨m, path, b, vars⟩ := r
  simp only at hm hpath hd
  subst hm hpath
  have hclean : cleanPath "/" = "/" := by decide
  have hmatch : matchRoutes routes ⟨"GET", "/", b, vars⟩ false =
      RouteMatch.handler ⟨"/", Target.Index, true, ["GET"]⟩ [] := rfl
  have hs : serve env ⟨"GET", "/", b, vars⟩ =
      ⟨{ w := [Call.write (Payload.text "Welcome!\n")],
         store := [(ladonRequestKey, Value.ladonRequest p)],
         log := [LogEntry.request p, LogEntry.access "GET" "/" p],
         warden := [] }, none⟩ := by
    simp [serve, router, hclean, hmatch, Route.handler, Target.fn, aliceThen,
      commonHandlers, recoverHandler, parsingHandler, hd, loggingHandler, Index,
      getLadonRequest, State.contextGet, State.contextSet, State.logf, State.Write,
      State.init, List.lookup]
  rw [hs]
  refine ⟨rfl, rfl, rfl⟩

theorem Index_route_witness :
    status (serve sampleEnv ⟨"GET", "/", "\x7b\x7d", []⟩).st.w = some 200 ∧
    body (serve sampleEnv ⟨"GET", "/", "\x7b\x7d", []⟩).st.w = [Payload.text "Welcome!\n"] ∧
    (serve sampleEnv ⟨"GET", "/", "\x7b\x7d", []⟩).panicked = none :=
  Index_route sampleEnv ⟨"GET", "/", "\x7b\x7d", []⟩ (some ⟨"", "", "", []⟩) rfl rfl rfl

/-- C3: a POST to `/check` whose body is empty or does not decode is answered
with status 400 and the error record whose message ends in the decoder's
error text; the answer is the same whatever handler the chain wraps (the
handler is not called) and the policy engine is not called. -/
theorem check_bad_body (env : Env) (r : Request)
    (hm : r.Method = "POST") (hpath : r.Path = "/check")
    (hb : r.Body = "" ∨ ∃ e, env.unmarshal r.Body = Except.error e) :
    ∃ err, Decode env r.Body = Except.error err ∧
      status (serve env r).st.w = some 400 ∧
      body (serve env r).st.w =
        [Payload.errorResponse ⟨400, "Bad Request", "Can't parse input json2222" ++ err⟩] ∧
      sentHeader (serve env r).st.w = [("Content-Type", "application/json")] ∧
      (serve env r).panicked = none ∧
      (serve env r).st.warden = [] ∧
      ∀ h : Handler, aliceThen (commonHandlers env) h r State.init = serve env r := by
  have hd : ∃ err, Decode env r.Body = Except.error err := by
    rcases hb with hb | ⟨e, he⟩
    · exact ⟨"EOF", by simp [Decode, hb]⟩
    · by_cases h0 : r.Body = ""
      · exact ⟨"EOF", by simp [Decode, h0]⟩
      · exact ⟨e, by simp [Decode, h0, he]⟩
  obtain ⟨err, hd⟩ := hd
  refine ⟨err, hd, ?_⟩
  obtain ⟨m, path, b, vars⟩ := r
  simp only at hm hpath hd
  subst hm hpath
  have hclean : cleanPath "/check" = "/check" := by decide
  have hmatch : matchRoutes routes ⟨"POST", "/check", b, vars⟩ false =
      RouteMatch.handler ⟨"/check", Target.CheckAccess, true, ["POST"]⟩ [] := rfl
  have hs : serve env ⟨"POST", "/check", b, vars⟩ =
      aliceThen (commonHandlers env) (CheckAccess env) ⟨"POST", "/check", b, []⟩
        State.init := by
    simp [serve, router, hclean, hmatch, Route.handler, Target.fn]
  rw [hs, chain_decode_error env _ ⟨"POST", "/check", b, []⟩ State.init err hd]
  refine ⟨rfl, rfl, rfl, rfl, rfl, ?_⟩
  intro h
  rw [chain_decode_error env h ⟨"POST", "/check", b, vars⟩ State.init err hd]

theorem check_bad_body_witness :
    ∃ err, Decode sampleEnv "not-json" = Except.error err ∧
      status (serve sampleEnv ⟨"POST", "/check", "not-json", []⟩).st.w = some 400 :=
  have h := check_bad_body sampleEnv ⟨"POST", "/check", "not-json", []⟩ rfl rfl
    (Or.inr ⟨"invalid character", rfl⟩)
  h.elim fun err he => ⟨err, he.1, he.2.1⟩

/-- C4: a POST to `/check` whose body decodes is answered with status 200 and
the JSON of `AssentResponse` whose `IsAllowed` is true exactly when the
engine returns no error; the engine is asked once, with the decoded request,
and no panic is raised. -/
theorem check_decoded (env : Env) (r : Request) (p : Option LadonRequest)
    (hm : r.Method = "POST") (hpath : r.Path = "/check")
    (hd : Decode env r.Body = Except.ok p) :
    ∃ b : Bool, (b = true ↔ env.IsAllowed p = none) ∧
      status (serve env r).st.w = some 200 ∧
      body (serve env r).st.w = [Payload.assentResponse ⟨b⟩] ∧
      sentHeader (serve env r).st.w = [("Content-Type", "application/json")] ∧
      (serve env r).panicked = none ∧
      (serve env r).st.warden = [p] := by
  obtain ⟨m, path, b, vars⟩ := r
  simp only at hm hpath hd
  subst hm hpath
  have hclean : cleanPath "/check" = "/check" := by decide
  have hmatch : matchRoutes routes ⟨"POST", "/check", b, vars⟩ false =
      RouteMatch.handler ⟨"/check", Target.CheckAccess, true, ["POST"]⟩ [] := rfl
  cases hw : env.IsAllowed p with
  | none =>
    refine ⟨true, by simp, ?_⟩
    have hs : serve env ⟨"POST", "/check", b, vars⟩ =
        ⟨{ w := [Call.headerAdd "Content-Type" "application/json",
                 Call.write (Payload.assentResponse ⟨true⟩)],
           store := [(ladonRequestKey, Value.ladonRequest p)],
           log := [LogEntry.request p, LogEntry.line "Allowed",
             LogEntry.access "POST" "/check" p],
           warden := [p] }, none⟩ := by
      simp [serve, router, hclean, hmatch, Route.handler, Target.fn, aliceThen,
        commonHandlers, recoverHandler, parsingHandler, hd, loggingHandler, CheckAccess,
        getLadonRequest, State.contextGet, State.contextSet, State.logf, State.Write,
        State.headerAdd, State.init, List.lookup, hw]
    rw [hs]
    refine ⟨rfl, rfl, rfl, rfl, rfl⟩
  | some e =>
    refine ⟨false, by simp, ?_⟩
    have hs : serve env ⟨"POST", "/check", b, vars⟩ =
        ⟨{ w := [Call.headerAdd "Content-Type" "application/json",
                 Call.write (Payload.assentResponse ⟨false⟩)],
           store := [(ladonRequestKey, Value.ladonRequest p)],
           log := [LogEntry.request p, LogEntry.line "Access denied",
             LogEntry.access "POST" "/check" p],
           warden := [p] }, none⟩ := by
      simp [serve, router, hclean, hmatch, Route.handler, Target.fn, aliceThen,
        commonHandlers, recoverHandler, parsingHandler, hd, loggingHandler, CheckAccess,
        getLadonRequest, State.contextGet, State.contextSet, State.logf, State.Write,
        State.headerAdd, State.init, List.lookup, hw]
    rw [hs]
    refine ⟨rfl, rfl, rfl, rfl, rfl⟩

theorem check_decoded_witness :
    ∃ b : Bool, (b = true ↔ sampleEnv.IsAllowed (some ⟨"", "", "", []⟩) = none) ∧
      status (serve sampleEnv ⟨"POST", "/check", "\x7b\x7d", []⟩).st.w = some 200 ∧
      body (serve sampleEnv ⟨"POST", "/check", "\x7b\x7d", []⟩).st.w =
        [Payload.assentResponse ⟨b⟩] :=
  have h := check_decoded sampleEnv ⟨"POST", "/check", "\x7b\x7d", []⟩
    (some ⟨"", "", "", []⟩) rfl rfl rfl
  h.elim fun b hb => ⟨b, hb.1, hb.2.1, hb.2.2.1⟩

/-- C5 (counterexample): the path `//nope` matches no route of the table,
yet the request is not answered by `notFoundHandler`: the router redirects
it to the cleaned path `/nope` with status 301 and no body. -/
theorem unclean_path_is_301 :
    (∀ rt ∈ routes, pathMatch rt.tpl "//nope" = none) ∧
    status (serve sampleEnv ⟨"GET", "//nope", "", []⟩).st.w = some 301 ∧
    sentHeader (serve sampleEnv ⟨"GET", "//nope", "", []⟩).st.w = [("Location", "/nope")] ∧
    body (serve sampleEnv ⟨"GET", "//nope", "", []⟩).st.w = [] := by
  refine ⟨by decide, rfl, rfl, rfl⟩

/-- C5 (amended): a request whose path is in canonical form (`cleanPath`
leaves it unchanged) and matches no route of the table, whatever its method,
is answered by `notFoundHandler`: status 404, `Content-Type`
`application/json`, and the error record with `StatusCode` 404,
`StatusMessage` `Not Found` and `ErrorMessage` `Resource not found`. -/
theorem unmatched_path_404 (env : Env) (r : Request)
    (hclean : cleanPath r.Path = r.Path)
    (h : ∀ rt ∈ routes, pathMatch rt.tpl r.Path = none) :
    status (serve env r).st.w = some 404 ∧
    body (serve env r).st.w =
      [Payload.errorResponse ⟨404, "Not Found", "Resource not found"⟩] ∧
    sentHeader (serve env r).st.w = [("Content-Type", "application/json")] ∧
    (serve env r).panicked = none := by
  have hmatch := matchRoutes_no_path r routes false h
  simp only [Bool.false_eq_true, if_false] at hmatch
  have hs : serve env r = notFoundHandler r State.init := by
    simp [serve, router, hclean, hmatch]
  rw [hs]
  refine ⟨rfl, rfl, rfl, rfl⟩

theorem unmatched_path_404_witness :
    status (serve sampleEnv ⟨"DELETE", "/nope", "", []⟩).st.w = some 404 ∧
    body (serve sampleEnv ⟨"DELETE", "/nope", "", []⟩).st.w =
      [Payload.errorResponse ⟨404, "Not Found", "Resource not found"⟩] :=
  have h := unmatched_path_404 sampleEnv ⟨"DELETE", "/nope", "", []⟩ (by decide)
    (by decide)
  ⟨h.1, h.2.1⟩

/-- C6 (counterexample): four records on which the claim fails.  With
`StatusCode` 0 on a fresh response `WriteHeader` panics, and no status and no
body are written; with `StatusCode` 100 the status line is 200; with
`StatusCode` 204 no body is sent; and a record with `StatusCode` 400 handed
over after `Index` has written leaves the status line at 200. -/
theorem ErrorResponseHandler_fails :
    ((ErrorResponseHandler (some ⟨0, "", "x"⟩) ⟨"GET", "/", "", []⟩ State.init).panicked =
        some (Value.str "invalid WriteHeader code 0") ∧
      status (ErrorResponseHandler (some ⟨0, "", "x"⟩)
        ⟨"GET", "/", "", []⟩ State.init).st.w = none ∧
      body (ErrorResponseHandler (some ⟨0, "", "x"⟩)
        ⟨"GET", "/", "", []⟩ State.init).st.w = []) ∧
    status (ErrorResponseHandler (some ⟨100, "", "x"⟩)
      ⟨"GET", "/", "", []⟩ State.init).st.w = some 200 ∧
    (status (ErrorResponseHandler (some ⟨204, "", "x"⟩)
        ⟨"GET", "/", "", []⟩ State.init).st.w = some 204 ∧
      body (ErrorResponseHandler (some ⟨204, "", "x"⟩)
        ⟨"GET", "/", "", []⟩ State.init).st.w = []) ∧
    status (ErrorResponseHandler (some ⟨400, "", "x"⟩) ⟨"GET", "/", "", []⟩
      (Index ⟨"GET", "/", "", []⟩ State.init).st).st.w = some 200 := by
  refine ⟨⟨rfl, rfl, rfl⟩, rfl, ⟨rfl, rfl⟩, rfl⟩

/-- C6 (amended): for every record `e` handed to `ErrorResponseHandler`,
whatever its `StatusMessage` on entry, the calls made on the response are
either the `Content-Type` header alone (when `WriteHeader` panics) or that
header, `WriteHeader(e.StatusCode)` and one write of the record with
`StatusCode` and `ErrorMessage` of `e` and the status text of `e.StatusCode`
as `StatusMessage`: a record it writes never disagrees with its code.  On a
response whose header is unsent and for a code in 200..999 the handler
returns normally, the status line is `e.StatusCode`, the header sent carries
`Content-Type: application/json`, and unless the code is 204 or 304 the body
is that record. -/
theorem ErrorResponseHandler_renders (e : ErrorResponse) (r : Request) (s : State) :
    ((ErrorResponseHandler (some e) r s).st.w =
        s.w ++ [Call.headerAdd "Content-Type" "application/json"] ∨
      (ErrorResponseHandler (some e) r s).st.w = s.w ++
        [Call.headerAdd "Content-Type" "application/json",
          Call.writeHeader e.StatusCode,
          Call.write (Payload.errorResponse
            ⟨e.StatusCode, statusText e.StatusCode, e.ErrorMessage⟩)]) ∧
    (status s.w = none → 200 ≤ e.StatusCode → e.StatusCode ≤ 999 →
      (ErrorResponseHandler (some e) r s).panicked = none ∧
      status (ErrorResponseHandler (some e) r s).st.w = some e.StatusCode ∧
      sentHeader (ErrorResponseHandler (some e) r s).st.w =
        sentHeader s.w ++ [("Content-Type", "application/json")] ∧
      (e.StatusCode ≠ 204 → e.StatusCode ≠ 304 →
        body (ErrorResponseHandler (some e) r s).st.w =
          [Payload.errorResponse
            ⟨e.StatusCode, statusText e.StatusCode, e.ErrorMessage⟩])) := by
  refine ⟨ErrorResponseHandler_calls e r s, ?_⟩
  intro hs hlo hhi
  have hv : validCode e.StatusCode = true := by
    simp only [validCode, Bool.and_eq_true, decide_eq_true_eq]
    omega
  have hsend : sendsHeader e.StatusCode = true := by
    simp only [sendsHeader, informational, hv, Bool.true_and, Bool.not_eq_true',
      Bool.and_eq_false_iff, decide_eq_false_iff_not]
    omega
  rw [ErrorResponseHandler_ok e r s (fun _ => hv)]
  have hst : status (s.w ++ [Call.headerAdd "Content-Type" "application/json",
      Call.writeHeader e.StatusCode, Call.write (Payload.errorResponse
        ⟨e.StatusCode, statusText e.StatusCode, e.ErrorMessage⟩)]) =
      some e.StatusCode := by
    rw [status_append_of_none _ _ hs]
    simp [status, hsend]
  refine ⟨rfl, hst, ?_, ?_⟩
  · simp only [sentHeader]
    rw [sentHeaderFrom_append_of_none _ _ _ hs]
    simp [sentHeaderFrom, hsend]
  · intro h204 h304
    have hb : bodyAllowedForStatus e.StatusCode = true := by
      simp only [bodyAllowedForStatus, Bool.and_eq_true, Bool.not_eq_true',
        Bool.and_eq_false_iff, decide_eq_false_iff_not, decide_eq_true_eq]
      omega
    simp [body, hst, hb, writes_append, writes_of_status_none _ hs, writes]

theorem ErrorResponseHandler_renders_witness :
    status (ErrorResponseHandler (some ⟨403, "OK", "denied"⟩)
      ⟨"GET", "/", "", []⟩ State.init).st.w = some 403 ∧
    body (ErrorResponseHandler (some ⟨403, "OK", "denied"⟩)
      ⟨"GET", "/", "", []⟩ State.init).st.w =
        [Payload.errorResponse ⟨403, "Forbidden", "denied"⟩] :=
  have h := (ErrorResponseHandler_renders ⟨403, "OK", "denied"⟩
    ⟨"GET", "/", "", []⟩ State.init).2 rfl (by decide) (by decide)
  ⟨h.2.1, h.2.2.2 (by decide) (by decide)⟩

/-- C7 (counterexample): with `loggingHandler(Index)` as the downstream
handler and an empty context store, `Index` writes the greeting,
`loggingHandler` then panics in `getLadonRequest`, and `recoverHandler`
writes the error record: two writes to the response body. -/
theorem recoverHandler_two_writes :
    writeCount (recoverHandler (loggingHandler Index)
      ⟨"GET", "/", "", []⟩ State.init).st.w = 2 ∧
    body (recoverHandler (loggingHandler Index) ⟨"GET", "/", "", []⟩ State.init).st.w =
      [Payload.text "Welcome!\n",
        Payload.errorResponse ⟨400, "Bad Request", "Can't parse input json"⟩] := by
  constructor <;> rfl

/-- C7 (amended): `recoverHandler(next)` adds at most one write to those of
`next`; it adds none (it is `next` itself) when `next` returns normally; so
at most one write results when `next` has written nothing. -/
theorem recoverHandler_writes (next : Handler) (r : Request) (s : State) :
    writeCount (recoverHandler next r s).st.w ≤ writeCount (next r s).st.w + 1 ∧
    ((next r s).panicked = none → recoverHandler next r s = next r s) ∧
    (writeCount (next r s).st.w = 0 →
      writeCount (recoverHandler next r s).st.w ≤ 1) := by
  have hbound : writeCount (recoverHandler next r s).st.w ≤
      writeCount (next r s).st.w + 1 := by
    cases hp : (next r s).panicked with
    | none => simp [recoverHandler, hp]
    | some v =>
      cases hc : classify v with
      | none =>
        rw [recoverHandler_nil_response next r s v hp hc]
        simp [State.headerAdd, State.logf, writeCount, body_append_headerAdd]
      | some e =>
        rw [recoverHandler_classified next r s v e hp hc]
        exact ErrorResponseHandler_writeCount e r _
  refine ⟨hbound, ?_, ?_⟩
  · intro hp
    simp [recoverHandler, hp]
  · intro h0
    omega

theorem recoverHandler_writes_witness :
    writeCount (recoverHandler (fun _ s => ⟨s, some (Value.str "boom")⟩)
      ⟨"GET", "/", "", []⟩ State.init).st.w ≤ 1 :=
  (recoverHandler_writes (fun _ s => ⟨s, some (Value.str "boom")⟩)
    ⟨"GET", "/", "", []⟩ State.init).2.2 rfl

/-- C8: `getLadonRequest` returns the stored pointer when a `*ladon.Request`
is stored under `ladonRequestKey` (as `parsingHandler` stores it); it panics
exactly when no such value is stored, and every panic it raises is the
`ErrorResponse` with `StatusCode` 400 and `ErrorMessage`
`Can't parse input json`, so it returns no value in that case. -/
theorem getLadonRequest_spec (s : State) :
    (∀ p, s.contextGet ladonRequestKey = some (Value.ladonRequest p) →
      getLadonRequest s = Except.ok p) ∧
    ((¬ ∃ p, s.contextGet ladonRequestKey = some (Value.ladonRequest p)) ↔
      getLadonRequest s = Except.error
        (Value.errorResponse (some ⟨400, "", "Can't parse input json"⟩))) ∧
    (∀ v, getLadonRequest s = Except.error v →
      v = Value.errorResponse (some ⟨400, "", "Can't parse input json"⟩)) ∧
    (∀ p, getLadonRequest (s.contextSet ladonRequestKey (Value.ladonRequest p)) =
      Except.ok p) := by
  refine ⟨?_, ?_, ?_, ?_⟩
  · intro p hp
    simp [getLadonRequest, hp]
  · cases hg : s.contextGet ladonRequestKey with
    | none => simp [getLadonRequest, hg, notParsed]
    | some v => cases v <;> simp [getLadonRequest, hg, notParsed]
  · intro v hv
    cases hg : s.contextGet ladonRequestKey with
    | none =>
      simp [getLadonRequest, hg, notParsed] at hv
      exact hv.symm
    | some x =>
      cases x <;> simp [getLadonRequest, hg, notParsed] at hv <;> exact hv.symm
  · intro p
    simp [getLadonRequest, contextGet_contextSet]

theorem getLadonRequest_spec_witness :
    getLadonRequest ⟨[], [("json-request", Value.ladonRequest none)], [], []⟩ =
      Except.ok none ∧
    getLadonRequest ⟨[], [("json-request", Value.str "x")], [], []⟩ =
      Except.error (Value.errorResponse (some ⟨400, "", "Can't parse input json"⟩)) :=
  ⟨(getLadonRequest_spec ⟨[], [("json-request", Value.ladonRequest none)], [], []⟩).1
      none rfl,
    (getLadonRequest_spec ⟨[], [("json-request", Value.str "x")], [], []⟩).2.1.mp
      (by simp [State.contextGet, ladonRequestKey, List.lookup])⟩

/-- C9: the calls made on the response while handling through
`loggingHandler(next)` are exactly those `next` makes, whether `next` returns
or panics and whether `getLadonRequest` succeeds or not; so the status, the
header sent and the body are those of `next`. -/
theorem loggingHandler_no_write (next : Handler) (r : Request) (s : State) :
    (loggingHandler next r s).st.w = (next r s).st.w ∧
    status (loggingHandler next r s).st.w = status (next r s).st.w ∧
    sentHeader (loggingHandler next r s).st.w = sentHeader (next r s).st.w ∧
    body (loggingHandler next r s).st.w = body (next r s).st.w := by
  have hw : (loggingHandler next r s).st.w = (next r s).st.w := by
    unfold loggingHandler
    cases hp : (next r s).panicked with
    | some v => simp [hp]
    | none =>
      cases hg : getLadonRequest (next r s).st with
      | error v => simp [hp, hg]
      | ok request => simp [hp, hg, State.logf]
  simp [hw]

/-- C10: `CheckAccess` panics with the `ErrorResponse` 405 `Use POST requests`
whenever the method is not POST, leaving the state as it found it (the store
is not read, the engine is not asked); every request that the route table of
`main` dispatches to `CheckAccess` has method POST, so `CheckAccess` called
through the router never raises that 405. -/
theorem CheckAccess_405 :
    (∀ (env : Env) (r : Request) (s : State), r.Method ≠ "POST" →
      CheckAccess env r s =
        ⟨s, some (Value.errorResponse (some ⟨405, "", "Use POST requests"⟩))⟩) ∧
    (∀ (r : Request) (rt : Route) (vars : List (String × String)),
      matchRoutes routes r false = RouteMatch.handler rt vars →
      rt.target = Target.CheckAccess → r.Method = "POST") ∧
    (∀ (env : Env) (r : Request) (rt : Route) (vars : List (String × String))
      (s : State), matchRoutes routes r false = RouteMatch.handler rt vars →
      rt.target = Target.CheckAccess →
      (CheckAccess env { r with Vars := vars } s).panicked ≠
        some (Value.errorResponse (some ⟨405, "", "Use POST requests"⟩))) := by
  have hpost : ∀ (r : Request) (rt : Route) (vars : List (String × String)),
      matchRoutes routes r false = RouteMatch.handler rt vars →
      rt.target = Target.CheckAccess → r.Method = "POST" := by
    intro r rt vars hmatch ht
    obtain ⟨hmem, hmeth⟩ := matchRoutes_handler r routes false rt vars hmatch
    simp only [routes, List.mem_cons, List.mem_singleton, List.not_mem_nil, or_false] at hmem
    rcases hmem with h | h | h | h <;> subst h <;> simp at ht
    simpa [methodMatch] using hmeth.symm
  refine ⟨?_, hpost, ?_⟩
  · intro env r s hne
    simp [CheckAccess, hne]
  · intro env r rt vars s hmatch ht
    have hm := hpost r rt vars hmatch ht
    unfold CheckAccess
    simp only [hm, ne_eq, not_true_eq_false, if_false]
    cases hg : getLadonRequest s with
    | error v =>
      have := (getLadonRequest_total s v hg)
      simp [this, notParsed]
    | ok request => simp

theorem CheckAccess_405_witness :
    (CheckAccess sampleEnv ⟨"GET", "/check", "", []⟩ State.init).panicked =
      some (Value.errorResponse (some ⟨405, "", "Use POST requests"⟩)) ∧
    (⟨"POST", "/check", "", []⟩ : Request).Method = "POST" :=
  ⟨by rw [CheckAccess_405.1 sampleEnv ⟨"GET", "/check", "", []⟩ State.init (by decide)],
    CheckAccess_405.2.1 ⟨"POST", "/check", "", []⟩
      ⟨"/check", Target.CheckAccess, true, ["POST"]⟩ [] rfl rfl⟩

end AssentServer
